import Mathlib

/-!
Verification of the subscription cost aggregation engine
(`internal/subscription`: `sumByPeriodSQL`, `clampRange`, `monthsBetween`,
`normalizeMonth`, the `SumByPeriod` filter normalization, and `Update`).

All subscription dates in the engine are month-normalized (first day of the
month, 00:00:00 UTC), so a point in time is determined by its (year, month)
pair and `time.Time.Before` / SQL date comparison is the lexicographic order
on that pair.  `CURRENT_DATE` falls inside the current month while every
other date in play is a month start, so at month granularity it behaves as
the current month; we model it by the `now : Month` parameter.
-/

namespace SubSvc

/-- A month-normalized date: its year and month number.  Produced by
`normalizeMonth`, which fixes day = 1 and time 00:00:00 UTC. -/
structure Month where
  y : Int
  m : Int
deriving DecidableEq, Repr

/-- The underlying lexicographic pair of a `Month`. -/
def Month.toLexPair (a : Month) : Lex (Int × Int) := toLex (a.y, a.m)

/-- `time.Before` on month-normalized UTC times, and SQL `DATE` comparison,
is the lexicographic order on (year, month). -/
instance : LinearOrder Month :=
  LinearOrder.lift' Month.toLexPair (by
    intro a b h
    cases a
    cases b
    simpa [Month.toLexPair, toLex, Prod.ext_iff, Month.mk.injEq] using h)

/-- The month index `12 * year + month`; on valid months the lexicographic
order agrees with this index. -/
def Month.idx (a : Month) : Int := 12 * a.y + a.m

/-- A valid calendar month number, as guaranteed by Go's `time.Date`
normalization and `time.Parse`. -/
def Month.Valid (a : Month) : Prop := 1 ≤ a.m ∧ a.m ≤ 12

instance (a : Month) : Decidable a.Valid := by
  unfold Month.Valid
  infer_instance

/-! ### Go `time.Time` and `normalizeMonth` (handler.go) -/

/-- The components of a Go `time.Time` that the handler manipulates:
calendar fields plus whether the location is `time.UTC`. -/
structure GoTime where
  year : Int
  month : Int
  day : Int
  hour : Int
  minute : Int
  second : Int
  nanosecond : Int
  utcLoc : Bool
deriving DecidableEq, Repr

/-- A valid calendar date-time (what `time.Parse` produces); on such inputs
`time.Date` performs no field wrapping, so the record model is exact. -/
def GoTime.ValidDate (t : GoTime) : Prop :=
  1 ≤ t.month ∧ t.month ≤ 12 ∧ 1 ≤ t.day ∧ t.day ≤ 31 ∧
    0 ≤ t.hour ∧ t.hour < 24 ∧ 0 ≤ t.minute ∧ t.minute < 60 ∧
    0 ≤ t.second ∧ t.second < 60 ∧ 0 ≤ t.nanosecond

instance (t : GoTime) : Decidable t.ValidDate := by
  unfold GoTime.ValidDate
  infer_instance

/-- handler.go `normalizeMonth`:
`time.Date(t.Year(), t.Month(), defaultDayComponent, 0, 0, 0, 0, time.UTC)`
with `defaultDayComponent = 1`. -/
def normalizeMonth (t : GoTime) : GoTime :=
  { year := t.year, month := t.month, day := 1, hour := 0, minute := 0,
    second := 0, nanosecond := 0, utcLoc := true }

/-- The (year, month) pair of a time value; a month-normalized time is
determined by it. -/
def GoTime.toMonth (t : GoTime) : Month := ⟨t.year, t.month⟩

/-! ### Data model (model.go) and engine inputs -/

/-- Go strings are modelled as their character lists, so that
`strings.TrimSpace` / `strings.ToLower` / SQL `LOWER` are executable. -/
abbrev GoStr := List Char

/-- Go `strings.TrimSpace`: drop leading and trailing whitespace. -/
def trimSpace (s : GoStr) : GoStr :=
  ((s.dropWhile Char.isWhitespace).reverse.dropWhile Char.isWhitespace).reverse

/-- Go `strings.ToLower` / SQL `LOWER` (ASCII case mapping). -/
def lowerStr (s : GoStr) : GoStr := s.map Char.toLower

/-- The `subscriptions` row (model.go `Subscription`); ids are opaque and
timestamps are opaque instants. `startMonth` and `endMonth` are stored
month-normalized (`DATE` at day 1). -/
structure Subscription where
  id : Nat
  serviceName : GoStr
  priceRub : Int
  userId : Nat
  startMonth : Month
  endMonth : Option Month
  createdAt : Int
  updatedAt : Int
deriving DecidableEq, Repr

/-- model.go `SumFilter`. -/
structure SumFilter where
  startMonth : Option Month
  endMonth : Option Month
  userId : Option Nat
  serviceName : Option GoStr
deriving DecidableEq, Repr

/-! ### The aggregation engine (repository.go, goqu version) -/

/-- repository.go `maxTime` (`GREATEST` in SQL): `if a.After(b) { a } else b`. -/
def maxTime (a b : Month) : Month := if b < a then a else b

/-- repository.go `minTime` (`LEAST` in SQL): `if a.Before(b) { a } else b`. -/
def minTime (a b : Month) : Month := if a < b then a else b

/-- repository.go `monthsBetween`: 0 when `end` is before `start`, otherwise
`(yearsDiff * 12 + monthsDiff) + 1`.  Arguments are month-normalized (the Go
function normalizes them itself). -/
def monthsBetween (s e : Month) : Int :=
  if e < s then 0 else (e.y - s.y) * 12 + (e.m - s.m) + 1

/-- repository.go `clampRange`: intersect the subscription lifetime
`[subStart, subEnd?]` with the query period `[periodStart?, periodEnd?]`,
an absent upper bound on both sides defaulting to the current month. -/
def clampRange (subStart : Month) (subEnd : Option Month)
    (periodStart periodEnd : Option Month) (now : Month) :
    Option (Month × Month) :=
  let start : Month :=
    match periodStart with
    | some ps => if subStart < ps then ps else subStart
    | none => subStart
  let en : Month :=
    match subEnd, periodEnd with
    | some se, some pe => if pe < se then pe else se
    | some se, none => se
    | none, some pe => pe
    | none, none => now
  if en < start then none else some (start, en)

/-- `eff_start` of `sumByPeriodSQL`:
`GREATEST(s.start_month, COALESCE($1, s.start_month))`. -/
def effStart (subStart : Month) (a : Option Month) : Month :=
  maxTime subStart (a.getD subStart)

/-- `eff_end` of `sumByPeriodSQL`:
`LEAST(COALESCE(end_month, COALESCE($2, CURRENT_DATE)),
COALESCE($2, COALESCE(end_month, CURRENT_DATE)))`. -/
def effEnd (subEnd : Option Month) (b : Option Month) (now : Month) : Month :=
  minTime (subEnd.getD (b.getD now)) (b.getD (subEnd.getD now))

/-- `$3::uuid IS NULL OR s.user_id = $3::uuid`. -/
def userMatches (u : Option Nat) (s : Subscription) : Bool :=
  match u with
  | none => true
  | some uid => s.userId == uid

/-- `$4::text IS NULL OR LOWER(s.service_name) = LOWER($4::text)`. -/
def serviceMatches (nm : Option GoStr) (s : Subscription) : Bool :=
  match nm with
  | none => true
  | some v => lowerStr s.serviceName == lowerStr v

/-- The two date conditions of the `WHERE` clause of `sumByPeriodSQL`:
`start_month <= COALESCE($2, COALESCE(end_month, CURRENT_DATE))` and
`COALESCE(end_month, COALESCE($2, CURRENT_DATE)) >= COALESCE($1, start_month)`. -/
def inDateWindow (subStart : Month) (subEnd : Option Month)
    (a b : Option Month) (now : Month) : Bool :=
  decide (subStart ≤ b.getD (subEnd.getD now)) &&
    decide (a.getD subStart ≤ subEnd.getD (b.getD now))

/-- The contribution of one `subscriptions` row to the aggregate of
`sumByPeriodSQL`: rows passing the `WHERE` clause and the outer
`eff_end >= eff_start` filter contribute
`price_rub * ((yearDiff * 12 + monthDiff) + 1)`; all others contribute 0. -/
def sumByPeriodRow (a b : Option Month) (u : Option Nat) (nm : Option GoStr)
    (now : Month) (s : Subscription) : Int :=
  if userMatches u s && serviceMatches nm s &&
      inDateWindow s.startMonth s.endMonth a b now &&
      decide (effStart s.startMonth a ≤ effEnd s.endMonth b now) then
    s.priceRub *
      (((effEnd s.endMonth b now).y - (effStart s.startMonth a).y) * 12 +
        (((effEnd s.endMonth b now).m - (effStart s.startMonth a).m) + 1))
  else 0

/-- The full aggregate of `sumByPeriodSQL` over the table
(`COALESCE(SUM(...), 0)`). -/
def sumByPeriodSQLTotal (subs : List Subscription) (a b : Option Month)
    (u : Option Nat) (nm : Option GoStr) (now : Month) : Int :=
  (subs.map (sumByPeriodRow a b u nm now)).sum

/-- The service-name parameter normalization in `Repository.SumByPeriod`:
trim the filter value and treat an empty result as an absent filter. -/
def normalizeServiceFilter (nm : Option GoStr) : Option GoStr :=
  match nm with
  | none => none
  | some v => if trimSpace v = [] then none else some (trimSpace v)

/-- `Repository.SumByPeriod` (goqu version): normalize the filter parameters
and run `sumByPeriodSQL`.  The filter months arrive already
month-normalized, so re-normalizing them is the identity. -/
def SumByPeriod (subs : List Subscription) (f : SumFilter) (now : Month) : Int :=
  sumByPeriodSQLTotal subs f.startMonth f.endMonth f.userId
    (normalizeServiceFilter f.serviceName) now

/-! ### The application-memory path built from `clampRange`/`monthsBetween` -/

/-- The Filter Evaluator: owner equality and case-insensitive service-name
equality. -/
def filterMatches (u : Option Nat) (nm : Option GoStr) (s : Subscription) : Bool :=
  userMatches u s && serviceMatches nm s

/-- One subscription's contribution when the aggregation is done in
application memory with `clampRange` and `monthsBetween`. -/
def appRowContribution (a b : Option Month) (now : Month) (s : Subscription) : Int :=
  match clampRange s.startMonth s.endMonth a b now with
  | some (st, en) => s.priceRub * monthsBetween st en
  | none => 0

/-- The application-memory total: sum `price * span` over the filtered
subscriptions with non-empty clamp. -/
def appTotal (subs : List Subscription) (a b : Option Month) (u : Option Nat)
    (nm : Option GoStr) (now : Month) : Int :=
  (subs.map (fun s => if filterMatches u nm s then appRowContribution a b now s else 0)).sum

/-! ### `GetByID` and `Update` (repository.go) -/

/-- model.go `UpdateParams`: optional new values; `endMonthSet`
distinguishes "clear the end month" from "leave it alone". -/
structure UpdateParams where
  id : Nat
  serviceName : Option GoStr
  priceRub : Option Int
  startMonth : Option Month
  endMonth : Option Month
  endMonthSet : Bool
deriving DecidableEq, Repr

/-- `Repository.GetByID`: `SELECT ... WHERE id = $1`; `none` models
`sql.ErrNoRows`.  The store is the `subscriptions` table as a list of rows
with distinct ids. -/
def GetByID (store : List Subscription) (id : Nat) : Option Subscription :=
  store.find? (fun s => s.id == id)

/-- Whether `Update` accumulated any `SET` clause
(`service_name`, `price_rub`, `start_month`, `end_month`). -/
def hasUpdates (p : UpdateParams) : Bool :=
  p.serviceName.isSome || p.priceRub.isSome || p.startMonth.isSome || p.endMonthSet

/-- The effect of the generated `UPDATE ... SET` on one row: each provided
field is overwritten, `end_month` is overwritten (possibly with NULL) when
`endMonthSet`, and `updated_at = now()`. -/
def applyUpdates (p : UpdateParams) (now : Int) (s : Subscription) : Subscription :=
  let s1 := match p.serviceName with
    | some v => { s with serviceName := v }
    | none => s
  let s2 := match p.priceRub with
    | some v => { s1 with priceRub := v }
    | none => s1
  let s3 := match p.startMonth with
    | some v => { s2 with startMonth := v }
    | none => s2
  let s4 := if p.endMonthSet then { s3 with endMonth := p.endMonth } else s3
  { s4 with updatedAt := now }

/-- `Repository.Update`: when no field is provided it answers with
`GetByID` and issues no statement; otherwise it runs the generated
`UPDATE ... WHERE id = ... RETURNING ...` (affecting only the matching row)
and returns the updated row, or `none` (`sql.ErrNoRows`) if the id is
absent.  Returns the response together with the resulting table state. -/
def Update (store : List Subscription) (p : UpdateParams) (now : Int) :
    Option Subscription × List Subscription :=
  if hasUpdates p then
    match GetByID store p.id with
    | none => (none, store)
    | some _ =>
      let store' := store.map (fun s => if s.id == p.id then applyUpdates p now s else s)
      (GetByID store' p.id, store')
  else (GetByID store p.id, store)

/-! ### Widening relations on optional period bounds (for monotonicity) -/

/-- Start-bound widening: removing the bound or moving it earlier. -/
def widerStart (a' a : Option Month) : Bool :=
  match a', a with
  | none, _ => true
  | some x, some y => decide (x ≤ y)
  | some _, none => false

/-- End-bound widening relative to the current month `now`: a present end
may move later; dropping the end is a widening only when the dropped bound
is at most the current month, because an absent query end is capped at the
current month by the engine. -/
def widerEnd (b' b : Option Month) (now : Month) : Bool :=
  match b, b' with
  | some y, some x => decide (y ≤ x)
  | some y, none => decide (y ≤ now)
  | none, none => true
  | none, some _ => false

/-- Validity of an optional month (vacuous when absent). -/
def optValid (o : Option Month) : Prop :=
  match o with
  | some y => y.Valid
  | none => True

instance (o : Option Month) : Decidable (optValid o) :=
  match o with
  | some y => inferInstanceAs (Decidable y.Valid)
  | none => inferInstanceAs (Decidable True)

/-! ### Helper lemmas -/

theorem Month.lt_def (a b : Month) : a < b ↔ a.y < b.y ∨ (a.y = b.y ∧ a.m < b.m) := by
  show a.toLexPair < b.toLexPair ↔ _
  simp [Month.toLexPair, Prod.Lex.lt_iff]

theorem Month.le_def (a b : Month) : a ≤ b ↔ a.y < b.y ∨ (a.y = b.y ∧ a.m ≤ b.m) := by
  show a.toLexPair ≤ b.toLexPair ↔ _
  simp [Month.toLexPair, Prod.Lex.le_iff]

theorem Month.le_iff_idx {a b : Month} (ha : a.Valid) (hb : b.Valid) :
    a ≤ b ↔ a.idx ≤ b.idx := by
  obtain ⟨ha1, ha2⟩ := ha
  obtain ⟨hb1, hb2⟩ := hb
  rw [Month.le_def]
  unfold Month.idx
  constructor
  · rintro (h | ⟨h1, h2⟩) <;> omega
  · intro h
    omega

theorem Month.lt_iff_idx {a b : Month} (ha : a.Valid) (hb : b.Valid) :
    a < b ↔ a.idx < b.idx := by
  obtain ⟨ha1, ha2⟩ := ha
  obtain ⟨hb1, hb2⟩ := hb
  rw [Month.lt_def]
  unfold Month.idx
  constructor
  · rintro (h | ⟨h1, h2⟩) <;> omega
  · intro h
    omega

theorem maxTime_eq_max (a b : Month) : maxTime a b = max a b := by
  unfold maxTime
  rcases lt_or_le b a with h | h
  · rw [if_pos h, max_eq_left h.le]
  · rw [if_neg (not_lt.mpr h), max_eq_right h]

theorem minTime_eq_min (a b : Month) : minTime a b = min a b := by
  unfold minTime
  rcases lt_or_le a b with h | h
  · rw [if_pos h, min_eq_left h.le]
  · rw [if_neg (not_lt.mpr h), min_eq_right h]

theorem effStart_eq_max (subStart : Month) (a : Option Month) :
    effStart subStart a = max subStart (a.getD subStart) := by
  rw [effStart, maxTime_eq_max]

theorem effEnd_eq_min (subEnd b : Option Month) (now : Month) :
    effEnd subEnd b now = min (subEnd.getD (b.getD now)) (b.getD (subEnd.getD now)) := by
  rw [effEnd, minTime_eq_min]

theorem le_effStart_left (subStart : Month) (a : Option Month) :
    subStart ≤ effStart subStart a := by
  rw [effStart_eq_max]
  exact le_max_left _ _

theorem le_effStart_right (subStart : Month) (a : Option Month) :
    a.getD subStart ≤ effStart subStart a := by
  rw [effStart_eq_max]
  exact le_max_right _ _

theorem effEnd_le_left (subEnd b : Option Month) (now : Month) :
    effEnd subEnd b now ≤ subEnd.getD (b.getD now) := by
  rw [effEnd_eq_min]
  exact min_le_left _ _

theorem effEnd_le_right (subEnd b : Option Month) (now : Month) :
    effEnd subEnd b now ≤ b.getD (subEnd.getD now) := by
  rw [effEnd_eq_min]
  exact min_le_right _ _

theorem effStart_none (subStart : Month) : effStart subStart none = subStart := by
  simp [effStart, maxTime]

theorem effStart_some (subStart ps : Month) :
    effStart subStart (some ps) = if subStart < ps then ps else subStart := by
  rw [effStart_eq_max]
  simp only [Option.getD_some]
  rcases lt_trichotomy subStart ps with h | h | h
  · rw [if_pos h, max_eq_right h.le]
  · subst h
    rw [if_neg (lt_irrefl _), max_self]
  · rw [if_neg (not_lt.mpr h.le), max_eq_left h.le]

theorem effEnd_some_some (se pe now : Month) :
    effEnd (some se) (some pe) now = if pe < se then pe else se := by
  rw [effEnd_eq_min]
  simp only [Option.getD_some]
  rcases lt_trichotomy pe se with h | h | h
  · rw [if_pos h, min_eq_right h.le]
  · subst h
    rw [if_neg (lt_irrefl _), min_self]
  · rw [if_neg (not_lt.mpr h.le), min_eq_left h.le]

theorem effEnd_some_none (se now : Month) : effEnd (some se) none now = se := by
  simp [effEnd, minTime]

theorem effEnd_none_some (pe now : Month) : effEnd none (some pe) now = pe := by
  simp [effEnd, minTime]

theorem effEnd_none_none (now : Month) : effEnd none none now = now := by
  simp [effEnd, minTime]

/-- `clampRange` computes exactly the `eff_start`/`eff_end` of
`sumByPeriodSQL` and rejects exactly the empty intersections. -/
theorem clampRange_eq (subStart : Month) (subEnd a b : Option Month) (now : Month) :
    clampRange subStart subEnd a b now =
      if effEnd subEnd b now < effStart subStart a then none
      else some (effStart subStart a, effEnd subEnd b now) := by
  cases a <;> cases subEnd <;> cases b <;>
    simp only [clampRange, effStart_none, effStart_some, effEnd_some_some,
      effEnd_some_none, effEnd_none_some, effEnd_none_none]

/-- The two date conditions of the `WHERE` clause are implied by
`eff_start <= eff_end`, hence redundant for the aggregate. -/
theorem inDateWindow_of_le {subStart : Month} {subEnd a b : Option Month} {now : Month}
    (h : effStart subStart a ≤ effEnd subEnd b now) :
    inDateWindow subStart subEnd a b now = true := by
  have h1 : subStart ≤ b.getD (subEnd.getD now) :=
    le_trans (le_trans (le_effStart_left _ _) h) (effEnd_le_right _ _ _)
  have h2 : a.getD subStart ≤ subEnd.getD (b.getD now) :=
    le_trans (le_trans (le_effStart_right _ _) h) (effEnd_le_left _ _ _)
  simp [inDateWindow, h1, h2]

theorem appRowContribution_char (a b : Option Month) (now : Month) (s : Subscription) :
    appRowContribution a b now s =
      if effStart s.startMonth a ≤ effEnd s.endMonth b now then
        s.priceRub * monthsBetween (effStart s.startMonth a) (effEnd s.endMonth b now)
      else 0 := by
  unfold appRowContribution
  rw [clampRange_eq]
  by_cases h : effEnd s.endMonth b now < effStart s.startMonth a
  · simp [h, not_le.mpr h]
  · simp [h, not_lt.mp h]

theorem sumByPeriodRow_char (a b : Option Month) (u : Option Nat) (nm : Option GoStr)
    (now : Month) (s : Subscription) :
    sumByPeriodRow a b u nm now s =
      if filterMatches u nm s = true ∧
          effStart s.startMonth a ≤ effEnd s.endMonth b now then
        s.priceRub * monthsBetween (effStart s.startMonth a) (effEnd s.endMonth b now)
      else 0 := by
  unfold sumByPeriodRow filterMatches
  by_cases hd : effStart s.startMonth a ≤ effEnd s.endMonth b now
  · rw [inDateWindow_of_le hd]
    by_cases hf : (userMatches u s && serviceMatches nm s) = true
    · simp only [hf, hd, and_true, if_pos, Bool.true_and, Bool.and_true,
        decide_eq_true_eq, monthsBetween, not_lt.mpr hd, if_true]
      rw [if_neg not_false]
      ring
    · have hf' : (userMatches u s && serviceMatches nm s) = false :=
        Bool.eq_false_iff.mpr hf
      simp [hf']
  · simp [hd]

/-- Per-row compatibility: the SQL row contribution is exactly the
filter-gated application-memory contribution. -/
theorem sumByPeriodRow_eq_app (a b : Option Month) (u : Option Nat) (nm : Option GoStr)
    (now : Month) (s : Subscription) :
    sumByPeriodRow a b u nm now s =
      if filterMatches u nm s then appRowContribution a b now s else 0 := by
  rw [sumByPeriodRow_char, appRowContribution_char]
  by_cases hf : filterMatches u nm s = true
  · simp [hf]
  · simp [hf]

theorem sumByPeriodSQLTotal_eq_appTotal (subs : List Subscription)
    (a b : Option Month) (u : Option Nat) (nm : Option GoStr) (now : Month) :
    sumByPeriodSQLTotal subs a b u nm now = appTotal subs a b u nm now := by
  induction subs with
  | nil => rfl
  | cons s t ih =>
    simp only [sumByPeriodSQLTotal, appTotal, List.map_cons, List.sum_cons] at ih ⊢
    rw [sumByPeriodRow_eq_app, ih]

theorem maxTime_valid {a b : Month} (ha : a.Valid) (hb : b.Valid) :
    (maxTime a b).Valid := by
  unfold maxTime
  split
  · exact ha
  · exact hb

theorem minTime_valid {a b : Month} (ha : a.Valid) (hb : b.Valid) :
    (minTime a b).Valid := by
  unfold minTime
  split
  · exact ha
  · exact hb

theorem getD_valid {o : Option Month} {d : Month} (ho : optValid o) (hd : d.Valid) :
    (o.getD d).Valid := by
  cases o with
  | none => simpa using hd
  | some x => simpa using ho

theorem effStart_valid {subStart : Month} {a : Option Month}
    (h : subStart.Valid) (ha : optValid a) : (effStart subStart a).Valid :=
  maxTime_valid h (getD_valid ha h)

theorem effEnd_valid {subEnd b : Option Month} {now : Month}
    (hse : optValid subEnd) (hb : optValid b) (hn : now.Valid) :
    (effEnd subEnd b now).Valid :=
  minTime_valid (getD_valid hse (getD_valid hb hn)) (getD_valid hb (getD_valid hse hn))

theorem effStart_mono {subStart : Month} {a a' : Option Month}
    (h : widerStart a' a = true) : effStart subStart a' ≤ effStart subStart a := by
  cases a' with
  | none =>
    rw [effStart_none]
    exact le_effStart_left _ _
  | some x =>
    cases a with
    | none => exact absurd h (by simp [widerStart])
    | some y =>
      have hxy : x ≤ y := by simpa [widerStart] using h
      rw [effStart_eq_max, effStart_eq_max]
      simp only [Option.getD_some]
      exact max_le_max le_rfl hxy

theorem effEnd_mono {subEnd b b' : Option Month} {now : Month}
    (h : widerEnd b' b now = true) : effEnd subEnd b now ≤ effEnd subEnd b' now := by
  cases b with
  | none =>
    cases b' with
    | none => exact le_refl _
    | some x => exact absurd h (by simp [widerEnd])
  | some y =>
    cases b' with
    | some x =>
      have hyx : y ≤ x := by simpa [widerEnd] using h
      cases subEnd with
      | none =>
        rw [effEnd_none_some, effEnd_none_some]
        exact hyx
      | some se =>
        rw [effEnd_some_some, effEnd_some_some]
        rcases lt_or_le y se with h1 | h1
        · rw [if_pos h1]
          rcases lt_or_le x se with h2 | h2
          · rw [if_pos h2]
            exact hyx
          · rw [if_neg (not_lt.mpr h2)]
            exact h1.le
        · rw [if_neg (not_lt.mpr h1)]
          rcases lt_or_le x se with h2 | h2
          · rw [if_pos h2]
            exact le_trans h1 hyx
          · rw [if_neg (not_lt.mpr h2)]
    | none =>
      have hy : y ≤ now := by simpa [widerEnd] using h
      cases subEnd with
      | none =>
        rw [effEnd_none_some, effEnd_none_none]
        exact hy
      | some se =>
        rw [effEnd_some_some, effEnd_some_none]
        rcases lt_or_le y se with h1 | h1
        · rw [if_pos h1]
          exact h1.le
        · rw [if_neg (not_lt.mpr h1)]

/-- Per-row monotonicity in the query period, under widening. -/
theorem sumByPeriodRow_mono {u : Option Nat} {nm : Option GoStr} {now : Month}
    {a a' b b' : Option Month} {s : Subscription}
    (hp : 0 ≤ s.priceRub) (hsv : s.startMonth.Valid) (hev : optValid s.endMonth)
    (hnow : now.Valid) (hav : optValid a) (hav' : optValid a')
    (hbv : optValid b) (hbv' : optValid b')
    (ha : widerStart a' a = true) (hb : widerEnd b' b now = true) :
    sumByPeriodRow a b u nm now s ≤ sumByPeriodRow a' b' u nm now s := by
  rw [sumByPeriodRow_char, sumByPeriodRow_char]
  have f1 : effStart s.startMonth a' ≤ effStart s.startMonth a := effStart_mono ha
  have f2 : effEnd s.endMonth b now ≤ effEnd s.endMonth b' now := effEnd_mono hb
  have stV : (effStart s.startMonth a).Valid := effStart_valid hsv hav
  have stV' : (effStart s.startMonth a').Valid := effStart_valid hsv hav'
  have enV : (effEnd s.endMonth b now).Valid := effEnd_valid hev hbv hnow
  have enV' : (effEnd s.endMonth b' now).Valid := effEnd_valid hev hbv' hnow
  by_cases hcond : filterMatches u nm s = true ∧
      effStart s.startMonth a ≤ effEnd s.endMonth b now
  · rw [if_pos hcond]
    have h2 : effStart s.startMonth a' ≤ effEnd s.endMonth b' now :=
      le_trans f1 (le_trans hcond.2 f2)
    rw [if_pos ⟨hcond.1, h2⟩]
    apply mul_le_mul_of_nonneg_left ?_ hp
    rw [monthsBetween, if_neg (not_lt.mpr hcond.2), monthsBetween,
      if_neg (not_lt.mpr h2)]
    have i1 := (Month.le_iff_idx stV' stV).mp f1
    have i2 := (Month.le_iff_idx enV enV').mp f2
    unfold Month.idx at i1 i2
    omega
  · rw [if_neg hcond]
    by_cases hcond' : filterMatches u nm s = true ∧
        effStart s.startMonth a' ≤ effEnd s.endMonth b' now
    · rw [if_pos hcond']
      apply mul_nonneg hp
      rw [monthsBetween, if_neg (not_lt.mpr hcond'.2)]
      have := (Month.le_iff_idx stV' enV').mp hcond'.2
      unfold Month.idx at this
      omega
    · rw [if_neg hcond']

/-! ### The claims -/

/-- C1: for the subscription {price 499, start 2025-01, end absent}, the
query period [2025-01, 2025-03] and the current month fixed at 2025-06,
`SumByPeriod` returns 1497; the clamped range is [2025-01, 2025-03], the
span is 3, and the contribution is price times span. -/
theorem claim_C1 :
    SumByPeriod
        [{ id := 1, serviceName := ['A'], priceRub := 499, userId := 7,
           startMonth := ⟨2025, 1⟩, endMonth := none, createdAt := 0, updatedAt := 0 }]
        { startMonth := some ⟨2025, 1⟩, endMonth := some ⟨2025, 3⟩,
          userId := none, serviceName := none } ⟨2025, 6⟩ = 1497
    ∧ clampRange ⟨2025, 1⟩ none (some ⟨2025, 1⟩) (some ⟨2025, 3⟩) ⟨2025, 6⟩
        = some (⟨2025, 1⟩, ⟨2025, 3⟩)
    ∧ monthsBetween ⟨2025, 1⟩ ⟨2025, 3⟩ = 3 := by
  refine ⟨by decide, by decide, by decide⟩

/-- C2: the declarative SQL aggregation path (`sumByPeriodSQL`) and the
application-memory path built from `clampRange` and `monthsBetween` compute
the same total for every subscription set, filter and query period; per
subscription, the SQL row contribution equals price times the span of the
non-empty clamp (and 0 for an empty clamp), gated by the filter. -/
theorem claim_C2 (subs : List Subscription) (f : SumFilter) (a b : Option Month)
    (u : Option Nat) (nm : Option GoStr) (now : Month) (s : Subscription) :
    sumByPeriodSQLTotal subs a b u nm now = appTotal subs a b u nm now
    ∧ sumByPeriodRow a b u nm now s
        = (if filterMatches u nm s then appRowContribution a b now s else 0)
    ∧ SumByPeriod subs f now
        = appTotal subs f.startMonth f.endMonth f.userId
            (normalizeServiceFilter f.serviceName) now := by
  refine ⟨sumByPeriodSQLTotal_eq_appTotal subs a b u nm now,
    sumByPeriodRow_eq_app a b u nm now s, ?_⟩
  unfold SumByPeriod
  exact sumByPeriodSQLTotal_eq_appTotal subs f.startMonth f.endMonth f.userId
    (normalizeServiceFilter f.serviceName) now

/-- C3: when both the subscription end month and the query end month are
absent, the effective upper bound produced by the range clamper is exactly
the current month: any non-empty clamp result ends at `now`, and the
`eff_end` expression evaluates to `now`. -/
theorem claim_C3 (subStart now st en : Month) (a : Option Month)
    (h : clampRange subStart none a none now = some (st, en)) :
    en = now ∧ effEnd none none now = now := by
  refine ⟨?_, effEnd_none_none now⟩
  rw [clampRange_eq] at h
  by_cases hlt : effEnd none none now < effStart subStart a
  · rw [if_pos hlt] at h
    exact absurd h (by simp)
  · rw [if_neg hlt] at h
    have h2 := congrArg Prod.snd (Option.some.inj h)
    rw [effEnd_none_none] at h2
    exact h2.symm

theorem claim_C3_witness :
    (⟨2025, 6⟩ : Month) = ⟨2025, 6⟩ ∧ effEnd none none ⟨2025, 6⟩ = ⟨2025, 6⟩ :=
  claim_C3 ⟨2025, 1⟩ ⟨2025, 6⟩ ⟨2025, 1⟩ ⟨2025, 6⟩ none (by decide)

/-- C4, counterexample: removing the query end bound can strictly decrease
the total.  With one open-ended subscription of price 499 starting 2025-01
and the current month 2025-06, the period [2025-01, 2025-12] yields
499 * 12 = 5988, but removing the end bound yields only 499 * 6 = 2994,
because an absent query end is capped at the current month. -/
theorem claim_C4_counterexample :
    SumByPeriod
        [{ id := 1, serviceName := ['A'], priceRub := 499, userId := 7,
           startMonth := ⟨2025, 1⟩, endMonth := none, createdAt := 0, updatedAt := 0 }]
        { startMonth := some ⟨2025, 1⟩, endMonth := none,
          userId := none, serviceName := none } ⟨2025, 6⟩
      <
      SumByPeriod
        [{ id := 1, serviceName := ['A'], priceRub := 499, userId := 7,
           startMonth := ⟨2025, 1⟩, endMonth := none, createdAt := 0, updatedAt := 0 }]
        { startMonth := some ⟨2025, 1⟩, endMonth := some ⟨2025, 12⟩,
          userId := none, serviceName := none } ⟨2025, 6⟩ := by
  decide

/-- C4, amended: for a fixed subscription set (with non-negative prices and
valid months) and filter, moving the query start earlier, removing the
query start, or moving the query end later never decreases the total; and
removing the query end never decreases the total provided the removed end
bound is at most the current month (an absent query end is capped at the
current month, so dropping a later end bound can decrease the total). -/
theorem claim_C4_amended (subs : List Subscription) (u : Option Nat)
    (nm : Option GoStr) (now : Month) (a a' b b' : Option Month)
    (hprice : ∀ s ∈ subs, 0 ≤ s.priceRub)
    (hsubs : ∀ s ∈ subs, s.startMonth.Valid ∧ optValid s.endMonth)
    (hnow : now.Valid) (hav : optValid a) (hav' : optValid a')
    (hbv : optValid b) (hbv' : optValid b')
    (ha : widerStart a' a = true) (hb : widerEnd b' b now = true) :
    SumByPeriod subs
        { startMonth := a, endMonth := b, userId := u, serviceName := nm } now
      ≤ SumByPeriod subs
        { startMonth := a', endMonth := b', userId := u, serviceName := nm } now := by
  unfold SumByPeriod sumByPeriodSQLTotal
  apply List.sum_le_sum
  intro s hs
  exact sumByPeriodRow_mono (hprice s hs) (hsubs s hs).1 (hsubs s hs).2
    hnow hav hav' hbv hbv' ha hb

theorem claim_C4_amended_witness :
    SumByPeriod
        [{ id := 1, serviceName := ['A'], priceRub := 499, userId := 7,
           startMonth := ⟨2025, 1⟩, endMonth := none, createdAt := 0, updatedAt := 0 }]
        { startMonth := some ⟨2025, 2⟩, endMonth := some ⟨2025, 4⟩,
          userId := none, serviceName := none } ⟨2025, 6⟩
      ≤
      SumByPeriod
        [{ id := 1, serviceName := ['A'], priceRub := 499, userId := 7,
           startMonth := ⟨2025, 1⟩, endMonth := none, createdAt := 0, updatedAt := 0 }]
        { startMonth := some ⟨2025, 1⟩, endMonth := some ⟨2025, 5⟩,
          userId := none, serviceName := none } ⟨2025, 6⟩ :=
  claim_C4_amended
    [{ id := 1, serviceName := ['A'], priceRub := 499, userId := 7,
       startMonth := ⟨2025, 1⟩, endMonth := none, createdAt := 0, updatedAt := 0 }]
    none none ⟨2025, 6⟩ (some ⟨2025, 2⟩) (some ⟨2025, 1⟩) (some ⟨2025, 4⟩)
    (some ⟨2025, 5⟩) (by decide) (by decide) (by decide) (by decide) (by decide)
    (by decide) (by decide) (by decide) (by decide)

/-- C5: for valid months, the month-span counter returns
`(yearsDiff * 12 + monthsDiff) + 1` whenever end is not before start
(inclusive of both endpoints, so span(M, M) = 1 and
span(2025-01, 2025-03) = 3), returns 0 when end is before start, and is
never negative. -/
theorem claim_C5 (s e : Month) (hs : s.Valid) (he : e.Valid) :
    (s ≤ e → monthsBetween s e = (e.y - s.y) * 12 + (e.m - s.m) + 1)
    ∧ (e < s → monthsBetween s e = 0)
    ∧ monthsBetween s s = 1
    ∧ 0 ≤ monthsBetween s e
    ∧ monthsBetween ⟨2025, 1⟩ ⟨2025, 3⟩ = 3 := by
  refine ⟨?_, ?_, ?_, ?_, by decide⟩
  · intro h
    rw [monthsBetween, if_neg (not_lt.mpr h)]
  · intro h
    rw [monthsBetween, if_pos h]
  · rw [monthsBetween, if_neg (lt_irrefl s)]
    ring
  · rcases lt_or_le e s with h | h
    · rw [monthsBetween, if_pos h]
    · rw [monthsBetween, if_neg (not_lt.mpr h)]
      have := (Month.le_iff_idx hs he).mp h
      unfold Month.idx at this
      omega

theorem claim_C5_witness :
    monthsBetween ⟨2025, 3⟩ ⟨2025, 1⟩ = 0
    ∧ monthsBetween ⟨2025, 4⟩ ⟨2025, 4⟩ = 1
    ∧ 0 ≤ monthsBetween ⟨2025, 1⟩ ⟨2025, 3⟩ :=
  ⟨(claim_C5 ⟨2025, 3⟩ ⟨2025, 1⟩ (by decide) (by decide)).2.1 (by decide),
    (claim_C5 ⟨2025, 4⟩ ⟨2025, 4⟩ (by decide) (by decide)).2.2.1,
    (claim_C5 ⟨2025, 1⟩ ⟨2025, 3⟩ (by decide) (by decide)).2.2.2.1⟩

/-- C6: a query period whose end month is before its start month yields
total 0 from `SumByPeriod` for every subscription set (and no error: the
function is total); likewise a subscription whose end month is before its
start month contributes 0 to any query. -/
theorem claim_C6 (subs : List Subscription) (f : SumFilter) (now qs qe : Month)
    (hqs : f.startMonth = some qs) (hqe : f.endMonth = some qe) (hlt : qe < qs)
    (s : Subscription) (a b : Option Month) (u : Option Nat) (nm : Option GoStr)
    (se : Month) (hse : s.endMonth = some se) (hes : se < s.startMonth) :
    SumByPeriod subs f now = 0 ∧ sumByPeriodRow a b u nm now s = 0 := by
  constructor
  · unfold SumByPeriod sumByPeriodSQLTotal
    apply List.sum_eq_zero
    intro x hx
    obtain ⟨t, ht, rfl⟩ := List.mem_map.mp hx
    rw [sumByPeriodRow_char, if_neg]
    rintro ⟨-, hd⟩
    rw [hqs, hqe] at hd
    have h1 : qs ≤ effStart t.startMonth (some qs) := by
      have h := le_effStart_right t.startMonth (some qs)
      simpa using h
    have h2 : effEnd t.endMonth (some qe) now ≤ qe := by
      have h := effEnd_le_right t.endMonth (some qe) now
      simpa using h
    exact absurd (le_trans h1 (le_trans hd h2)) (not_le.mpr hlt)
  · rw [sumByPeriodRow_char, if_neg]
    rintro ⟨-, hd⟩
    rw [hse] at hd
    have h2 : effEnd (some se) b now ≤ se := by
      have h := effEnd_le_left (some se) b now
      simpa using h
    exact absurd (le_trans (le_effStart_left _ _) (le_trans hd h2))
      (not_le.mpr hes)

theorem claim_C6_witness :
    SumByPeriod
        [{ id := 1, serviceName := ['A'], priceRub := 499, userId := 7,
           startMonth := ⟨2025, 1⟩, endMonth := none, createdAt := 0, updatedAt := 0 }]
        { startMonth := some ⟨2025, 5⟩, endMonth := some ⟨2025, 2⟩,
          userId := none, serviceName := none } ⟨2025, 6⟩ = 0
    ∧ sumByPeriodRow none none none none ⟨2025, 6⟩
        { id := 2, serviceName := ['B'], priceRub := 300, userId := 7,
          startMonth := ⟨2025, 5⟩, endMonth := some ⟨2025, 2⟩,
          createdAt := 0, updatedAt := 0 } = 0 :=
  claim_C6
    [{ id := 1, serviceName := ['A'], priceRub := 499, userId := 7,
       startMonth := ⟨2025, 1⟩, endMonth := none, createdAt := 0, updatedAt := 0 }]
    { startMonth := some ⟨2025, 5⟩, endMonth := some ⟨2025, 2⟩,
      userId := none, serviceName := none } ⟨2025, 6⟩ ⟨2025, 5⟩ ⟨2025, 2⟩
    rfl rfl (by decide)
    { id := 2, serviceName := ['B'], priceRub := 300, userId := 7,
      startMonth := ⟨2025, 5⟩, endMonth := some ⟨2025, 2⟩,
      createdAt := 0, updatedAt := 0 }
    none none none none ⟨2025, 2⟩ rfl (by decide)

/-- C7: the service-name filter value is trimmed of surrounding whitespace;
a whitespace-only (or empty) value is treated as no filter at all; a
non-empty trimmed value matches by case-insensitive equality against the
stored service name (so the filter "netflix" matches the stored
"Netflix"). -/
theorem claim_C7 (v w : GoStr) (hv : trimSpace v = []) (hw : trimSpace w ≠ [])
    (subs : List Subscription) (f : SumFilter) (now : Month) (s : Subscription)
    (hnet : s.serviceName = ['N', 'e', 't', 'f', 'l', 'i', 'x']) :
    SumByPeriod subs { f with serviceName := some v } now
        = SumByPeriod subs { f with serviceName := none } now
    ∧ serviceMatches (normalizeServiceFilter (some w)) s
        = (lowerStr s.serviceName == lowerStr (trimSpace w))
    ∧ serviceMatches (normalizeServiceFilter (some ['n', 'e', 't', 'f', 'l', 'i', 'x'])) s
        = true := by
  refine ⟨?_, ?_, ?_⟩
  · unfold SumByPeriod
    simp [normalizeServiceFilter, hv]
  · have h2 : normalizeServiceFilter (some w) = some (trimSpace w) := by
      simp [normalizeServiceFilter, hw]
    rw [h2]
    simp only [serviceMatches]
  · have h1 : normalizeServiceFilter (some ['n', 'e', 't', 'f', 'l', 'i', 'x'])
        = some ['n', 'e', 't', 'f', 'l', 'i', 'x'] := by decide
    rw [h1]
    simp only [serviceMatches]
    rw [hnet]
    decide

theorem claim_C7_witness :
    SumByPeriod
        [{ id := 1, serviceName := ['N', 'e', 't', 'f', 'l', 'i', 'x'],
           priceRub := 499, userId := 7, startMonth := ⟨2025, 1⟩,
           endMonth := none, createdAt := 0, updatedAt := 0 }]
        { startMonth := none, endMonth := none, userId := none,
          serviceName := some [' ', ' '] } ⟨2025, 6⟩
      = SumByPeriod
        [{ id := 1, serviceName := ['N', 'e', 't', 'f', 'l', 'i', 'x'],
           priceRub := 499, userId := 7, startMonth := ⟨2025, 1⟩,
           endMonth := none, createdAt := 0, updatedAt := 0 }]
        { startMonth := none, endMonth := none, userId := none,
          serviceName := none } ⟨2025, 6⟩
    ∧ serviceMatches
        (normalizeServiceFilter (some [' ', 'n', 'e', 't', 'f', 'l', 'i', 'x']))
        { id := 1, serviceName := ['N', 'e', 't', 'f', 'l', 'i', 'x'],
          priceRub := 499, userId := 7, startMonth := ⟨2025, 1⟩,
          endMonth := none, createdAt := 0, updatedAt := 0 }
      = (lowerStr ['N', 'e', 't', 'f', 'l', 'i', 'x']
          == lowerStr (trimSpace [' ', 'n', 'e', 't', 'f', 'l', 'i', 'x']))
    ∧ serviceMatches (normalizeServiceFilter (some ['n', 'e', 't', 'f', 'l', 'i', 'x']))
        { id := 1, serviceName := ['N', 'e', 't', 'f', 'l', 'i', 'x'],
          priceRub := 499, userId := 7, startMonth := ⟨2025, 1⟩,
          endMonth := none, createdAt := 0, updatedAt := 0 }
      = true :=
  claim_C7 [' ', ' '] [' ', 'n', 'e', 't', 'f', 'l', 'i', 'x'] (by decide) (by decide)
    [{ id := 1, serviceName := ['N', 'e', 't', 'f', 'l', 'i', 'x'],
       priceRub := 499, userId := 7, startMonth := ⟨2025, 1⟩,
       endMonth := none, createdAt := 0, updatedAt := 0 }]
    { startMonth := none, endMonth := none, userId := none, serviceName := none }
    ⟨2025, 6⟩
    { id := 1, serviceName := ['N', 'e', 't', 'f', 'l', 'i', 'x'],
      priceRub := 499, userId := 7, startMonth := ⟨2025, 1⟩,
      endMonth := none, createdAt := 0, updatedAt := 0 }
    rfl

/-- C8: a subscription whose start month equals the query end month, when
not excluded by the other bounds or the filters, has a non-empty clamp with
span 1 and contributes exactly its price once. -/
theorem claim_C8 (s : Subscription) (a : Option Month) (u : Option Nat)
    (nm : Option GoStr) (now : Month)
    (ha : a.getD s.startMonth ≤ s.startMonth)
    (he : s.startMonth ≤ s.endMonth.getD s.startMonth)
    (hf : filterMatches u nm s = true) :
    sumByPeriodRow a (some s.startMonth) u nm now s = s.priceRub
    ∧ clampRange s.startMonth s.endMonth a (some s.startMonth) now
        = some (s.startMonth, s.startMonth)
    ∧ monthsBetween s.startMonth s.startMonth = 1 := by
  have hst : effStart s.startMonth a = s.startMonth := by
    rw [effStart_eq_max]
    exact max_eq_left ha
  have hen : effEnd s.endMonth (some s.startMonth) now = s.startMonth := by
    cases hse : s.endMonth with
    | none => rw [effEnd_none_some]
    | some y =>
      rw [hse] at he
      simp only [Option.getD_some] at he
      rw [effEnd_some_some]
      rcases lt_or_le s.startMonth y with h | h
      · rw [if_pos h]
      · rw [if_neg (not_lt.mpr h)]
        exact le_antisymm h he
  have hone : monthsBetween s.startMonth s.startMonth = 1 := by
    rw [monthsBetween, if_neg (lt_irrefl _)]
    ring
  refine ⟨?_, ?_, hone⟩
  · rw [sumByPeriodRow_char, hst, hen, if_pos ⟨hf, le_refl _⟩, hone, mul_one]
  · rw [clampRange_eq, hst, hen, if_neg (lt_irrefl _)]

theorem claim_C8_witness :
    sumByPeriodRow (some ⟨2025, 1⟩) (some ⟨2025, 3⟩) none none ⟨2025, 6⟩
        { id := 1, serviceName := ['A'], priceRub := 499, userId := 7,
          startMonth := ⟨2025, 3⟩, endMonth := none, createdAt := 0, updatedAt := 0 }
      = 499
    ∧ clampRange ⟨2025, 3⟩ none (some ⟨2025, 1⟩) (some ⟨2025, 3⟩) ⟨2025, 6⟩
        = some (⟨2025, 3⟩, ⟨2025, 3⟩)
    ∧ monthsBetween ⟨2025, 3⟩ ⟨2025, 3⟩ = 1 :=
  claim_C8
    { id := 1, serviceName := ['A'], priceRub := 499, userId := 7,
      startMonth := ⟨2025, 3⟩, endMonth := none, createdAt := 0, updatedAt := 0 }
    (some ⟨2025, 1⟩) none none ⟨2025, 6⟩ (by decide) (by decide) (by decide)

/-- C9: the month normalizer maps every valid calendar date to the first
day of its month at 00:00:00 in UTC (it is a total function, so it never
fails), is constant on calendar months (two inputs with the same year and
month normalize identically), and is idempotent. -/
theorem claim_C9 (t t1 t2 : GoTime) (_ht : t.ValidDate)
    (h1 : t1.year = t2.year) (h2 : t1.month = t2.month) :
    (normalizeMonth t).day = 1
    ∧ (normalizeMonth t).hour = 0
    ∧ (normalizeMonth t).minute = 0
    ∧ (normalizeMonth t).second = 0
    ∧ (normalizeMonth t).nanosecond = 0
    ∧ (normalizeMonth t).utcLoc = true
    ∧ (normalizeMonth t).toMonth = t.toMonth
    ∧ normalizeMonth t1 = normalizeMonth t2
    ∧ normalizeMonth (normalizeMonth t) = normalizeMonth t := by
  refine ⟨rfl, rfl, rfl, rfl, rfl, rfl, rfl, ?_, rfl⟩
  simp [normalizeMonth, h1, h2]

theorem claim_C9_witness :
    (normalizeMonth ⟨2025, 7, 19, 13, 45, 12, 5, false⟩).day = 1
    ∧ (normalizeMonth ⟨2025, 7, 19, 13, 45, 12, 5, false⟩).hour = 0
    ∧ (normalizeMonth ⟨2025, 7, 19, 13, 45, 12, 5, false⟩).minute = 0
    ∧ (normalizeMonth ⟨2025, 7, 19, 13, 45, 12, 5, false⟩).second = 0
    ∧ (normalizeMonth ⟨2025, 7, 19, 13, 45, 12, 5, false⟩).nanosecond = 0
    ∧ (normalizeMonth ⟨2025, 7, 19, 13, 45, 12, 5, false⟩).utcLoc = true
    ∧ (normalizeMonth ⟨2025, 7, 19, 13, 45, 12, 5, false⟩).toMonth
        = GoTime.toMonth ⟨2025, 7, 19, 13, 45, 12, 5, false⟩
    ∧ normalizeMonth ⟨2025, 7, 19, 13, 45, 12, 5, false⟩
        = normalizeMonth ⟨2025, 7, 2, 0, 0, 0, 0, true⟩
    ∧ normalizeMonth (normalizeMonth ⟨2025, 7, 19, 13, 45, 12, 5, false⟩)
        = normalizeMonth ⟨2025, 7, 19, 13, 45, 12, 5, false⟩ :=
  claim_C9 ⟨2025, 7, 19, 13, 45, 12, 5, false⟩ ⟨2025, 7, 19, 13, 45, 12, 5, false⟩
    ⟨2025, 7, 2, 0, 0, 0, 0, true⟩ (by decide) rfl rfl

/-- C10: an update request providing no field (service name, price and
start month absent, end month not set) performs no modification: the table
is unchanged and the call returns exactly what `GetByID` returns. -/
theorem claim_C10 (store : List Subscription) (p : UpdateParams) (now : Int)
    (h1 : p.serviceName = none) (h2 : p.priceRub = none)
    (h3 : p.startMonth = none) (h4 : p.endMonthSet = false) :
    Update store p now = (GetByID store p.id, store) := by
  have h : hasUpdates p = false := by
    simp [hasUpdates, h1, h2, h3, h4]
  unfold Update
  rw [h]
  simp

theorem claim_C10_witness :
    Update
        [{ id := 1, serviceName := ['A'], priceRub := 499, userId := 7,
           startMonth := ⟨2025, 1⟩, endMonth := none, createdAt := 0, updatedAt := 0 }]
        { id := 1, serviceName := none, priceRub := none, startMonth := none,
          endMonth := none, endMonthSet := false } 42
      = (GetByID
          [{ id := 1, serviceName := ['A'], priceRub := 499, userId := 7,
             startMonth := ⟨2025, 1⟩, endMonth := none, createdAt := 0, updatedAt := 0 }] 1,
        [{ id := 1, serviceName := ['A'], priceRub := 499, userId := 7,
           startMonth := ⟨2025, 1⟩, endMonth := none, createdAt := 0, updatedAt := 0 }]) :=
  claim_C10
    [{ id := 1, serviceName := ['A'], priceRub := 499, userId := 7,
       startMonth := ⟨2025, 1⟩, endMonth := none, createdAt := 0, updatedAt := 0 }]
    { id := 1, serviceName := none, priceRub := none, startMonth := none,
      endMonth := none, endMonthSet := false } 42 rfl rfl rfl rfl

end SubSvc
